import Mathlib

/-!
Shallow embedding of `src/create_lotic_water.py` (Riparian repository).

The script prepares hydrological vector layers: it loads per-county
land-use polygon tables, filters them by land-use code and acreage,
merges them, and removes features disconnected from the FACET stream
network via a chunked spatial join (`sjoin_mp` / `sjoin`).

External collaborators (the geometry engine, `geopandas` file IO, the
`pandas` frame operations) are modelled as follows:

* a geometry is a finite set of integer grid points (`List (Int × Int)`),
  and the three spatial predicates `intersects` / `within` / `contains`
  are the point-set predicates share-a-point / subset / superset;
* a table is a `List` of row structures, in frame order;
* `pandas.drop_duplicates` (keep-first) is `dropDuplicates`;
* `pandas.concat` on a possibly-empty list of frames is `pdConcat`,
  which raises `ValueError` on the empty list exactly as `pandas` does;
* `gpd.read_file` results arrive as parameters (`Option` marks a file
  that may be absent on disk); the area engine `GeoSeries.area` is a
  parameter `area : Option Geometry → ℚ` (float arithmetic is modelled
  exactly over `ℚ`);
* Python exceptions are the `Except PyError` monad.
-/

/-- Errors raised by the embedded Python code. -/
inductive PyError where
  | typeError
  | valueError
  deriving DecidableEq, Repr

/-- Model of a geometry as a finite set of integer grid points. -/
abbrev Geometry := List (Int × Int)

/-- Geometry-engine model of the `intersects` predicate: the two point
sets share at least one point. -/
def intersectsOp (a b : Geometry) : Bool :=
  a.any (fun p => b.contains p)

/-- Geometry-engine model of the `within` predicate: every point of the
left geometry lies in the right geometry. -/
def withinOp (a b : Geometry) : Bool :=
  a.all (fun p => b.contains p)

/-- Geometry-engine model of the `contains` predicate: every point of
the right geometry lies in the left geometry. -/
def containsOp (a b : Geometry) : Bool :=
  b.all (fun p => a.contains p)

/-- The three `sjoin` operation strings accepted by the script:
`'intersects'`, `'within'`, `'contains'`. -/
inductive Op where
  | intersects
  | within
  | sContains
  deriving DecidableEq, Repr

/-- Dispatch from the operation name to the geometry-engine predicate. -/
def Op.toFun : Op → Geometry → Geometry → Bool
  | .intersects => intersectsOp
  | .within => withinOp
  | .sContains => containsOp

/-- Row of a left table handed to `gpd.sjoin`: a synthetic integer
identifier column `id` plus the geometry column, as in
`gdf[['id','geometry']]`. -/
structure LRow where
  id : Int
  geom : Geometry
  deriving DecidableEq, Repr

/-- Row of a right table handed to `gpd.sjoin`: an `id` column plus the
geometry column (the shape used by `clean_facet`'s self-join). -/
structure RRow where
  id : Int
  geom : Geometry
  deriving DecidableEq, Repr

/-- Row of the frame produced by `gpd.sjoin(df1, df2, how='inner', op=...)`
for the `(id, geometry) × (id, geometry)` shape: the left columns are kept
(including the left geometry), the right index is recorded in
`index_right`, and the clashing right `id` column is suffixed, giving
columns `id_left`, `geometry`, `index_right`, `id_right`. -/
structure JRow where
  id_left : Int
  geom : Geometry
  index_right : Nat
  id_right : Int
  deriving DecidableEq, Repr

/-- Column names that can appear in the `cols` projection list. -/
inductive Col where
  | id_left
  | geometry
  | index_right
  | id_right
  deriving DecidableEq, Repr

/-- A cell value of a projected output frame. -/
inductive Value where
  | int (i : Int)
  | nat (n : Nat)
  | geom (g : Geometry)
  deriving DecidableEq, Repr

/-- Read one column out of a joined row. -/
def JRow.proj (j : JRow) : Col → Value
  | .id_left => .int j.id_left
  | .geometry => .geom j.geom
  | .index_right => .nat j.index_right
  | .id_right => .int j.id_right

/-- Projection `sjoinSeg[cols]` of a joined row to the requested columns. -/
def projRow (cols : List Col) (j : JRow) : List Value :=
  cols.map j.proj

/-- Model of `gpd.sjoin(df1, df2, how='inner', op=sjoin_op)`: every pair
of a left row and a right row (tagged with its positional index) that
satisfies the predicate contributes one joined row. -/
def gpdSjoin (df1 : List LRow) (df2 : List RRow) (op : Geometry → Geometry → Bool) :
    List JRow :=
  df1.flatMap fun l =>
    (df2.enum.filter fun p => op l.geom p.2.geom).map fun p =>
      ⟨l.id, l.geom, p.1, p.2.id⟩

/-- Model of `DataFrame.drop_duplicates()` (default `keep='first'`):
remove exact duplicate rows, keeping each row's first occurrence. -/
def dropDuplicates {α : Type} [DecidableEq α] (l : List α) : List α :=
  l.reverse.dedup.reverse

/-- Embedding of the worker function `sjoin` (lines 170-185): run the
inner spatial join, call `drop_duplicates` on the full joined frame, and
project the result to the caller-specified columns. -/
def sjoin (df1 : List LRow) (df2 : List RRow) (op : Op) (cols : List Col) :
    List (List Value) :=
  (dropDuplicates (gpdSjoin df1 df2 op.toFun)).map (projRow cols)

/-- Python slice `l[mn:mx]`. -/
def pySlice {α : Type} (l : List α) (mn mx : Nat) : List α :=
  (l.drop mn).take (mx - mn)

/-- The six left-table slices built by the loop at lines 158-162 of
`sjoin_mp`, with `batch_size = int(len(df1) / 6) + 1` and slice `i`
covering rows `[i * batch_size, (i+1) * batch_size)`. -/
def chunk_iterator (df1 : List LRow) : List (List LRow) :=
  let batch_size := df1.length / 6 + 1
  (List.range 6).map fun i => pySlice df1 (i * batch_size) ((i + 1) * batch_size)

/-- Embedding of `sjoin_mp` (lines 143-168): split the left table into
six contiguous slices, run `sjoin` of each slice against the full right
table, and concatenate the per-chunk results in submission order. -/
def sjoin_mp (df1 : List LRow) (op : Op) (df2 : List RRow) (cols : List Col) :
    List (List Value) :=
  ((chunk_iterator df1).map fun c => sjoin c df2 op cols).flatten

-- Basic lemmas about the join machinery.

theorem mem_dropDuplicates {α : Type} [DecidableEq α] {a : α} {l : List α} :
    a ∈ dropDuplicates l ↔ a ∈ l := by
  simp [dropDuplicates, List.mem_dedup]

theorem dropDuplicates_eq_self {α : Type} [DecidableEq α] {l : List α}
    (h : l.Nodup) : dropDuplicates l = l := by
  have hr : l.reverse.Nodup := by simpa using h
  simp [dropDuplicates, List.dedup_eq_self.mpr hr]

theorem mem_sjoin_iff {df1 : List LRow} {df2 : List RRow} {op : Op}
    {cols : List Col} {x : List Value} :
    x ∈ sjoin df1 df2 op cols ↔
      ∃ j ∈ gpdSjoin df1 df2 op.toFun, projRow cols j = x := by
  simp [sjoin, mem_dropDuplicates]

theorem gpdSjoin_append (a b : List LRow) (df2 : List RRow)
    (op : Geometry → Geometry → Bool) :
    gpdSjoin (a ++ b) df2 op = gpdSjoin a df2 op ++ gpdSjoin b df2 op := by
  simp [gpdSjoin]

/-- Concatenating the blocks `l[i*b : (i+1)*b]` for `i < W` recovers the
first `W * b` elements of `l`. -/
theorem join_slices (l : List LRow) (b : Nat) :
    ∀ W : Nat, ((List.range W).map fun i => pySlice l (i * b) ((i + 1) * b)).flatten
      = l.take (W * b) := by
  intro W
  induction W with
  | zero => simp
  | succ W ih =>
    have hslice : pySlice l (W * b) (W * b + b) = (l.drop (W * b)).take b := by
      simp [pySlice]
    rw [List.range_succ, List.map_append, List.flatten_append, ih]
    simp [Nat.succ_mul, hslice, List.take_add]

/-- The six chunks of `sjoin_mp` concatenate back to the whole left
table: every row lands in exactly one chunk, in input order. -/
theorem chunk_iterator_join (df1 : List LRow) :
    (chunk_iterator df1).flatten = df1 := by
  have h := join_slices df1 (df1.length / 6 + 1) 6
  have hle : df1.length ≤ 6 * (df1.length / 6 + 1) := by omega
  simpa [chunk_iterator, List.take_of_length_le hle] using h

theorem gpdSjoin_join (cs : List (List LRow)) (df2 : List RRow)
    (op : Geometry → Geometry → Bool) :
    gpdSjoin cs.flatten df2 op = (cs.map fun c => gpdSjoin c df2 op).flatten := by
  induction cs with
  | nil => simp [gpdSjoin]
  | cons c cs ih => simp [gpdSjoin_append, ih]

theorem mem_sjoin_mp_iff {df1 : List LRow} {op : Op} {df2 : List RRow}
    {cols : List Col} {x : List Value} :
    x ∈ sjoin_mp df1 op df2 cols ↔
      ∃ j ∈ gpdSjoin df1 df2 op.toFun, projRow cols j = x := by
  constructor
  · intro hx
    rcases List.mem_flatten.mp hx with ⟨out, hout, hxo⟩
    rcases List.mem_map.mp hout with ⟨c, hc, rfl⟩
    rcases mem_sjoin_iff.mp hxo with ⟨j, hj, hpj⟩
    refine ⟨j, ?_, hpj⟩
    have : j ∈ gpdSjoin (chunk_iterator df1).flatten df2 op.toFun := by
      rw [gpdSjoin_join]
      exact List.mem_flatten.mpr ⟨_, List.mem_map.mpr ⟨c, hc, rfl⟩, hj⟩
    simpa [chunk_iterator_join] using this
  · rintro ⟨j, hj, hpj⟩
    have : j ∈ gpdSjoin (chunk_iterator df1).flatten df2 op.toFun := by
      simpa [chunk_iterator_join] using hj
    rw [gpdSjoin_join] at this
    rcases List.mem_flatten.mp this with ⟨out, hout, hjo⟩
    rcases List.mem_map.mp hout with ⟨c, hc, rfl⟩
    exact List.mem_flatten.mpr ⟨_, List.mem_map.mpr ⟨c, hc, rfl⟩,
      mem_sjoin_iff.mpr ⟨j, hjo, hpj⟩⟩

theorem mem_gpdSjoin_iff {df1 : List LRow} {df2 : List RRow}
    {op : Geometry → Geometry → Bool} {j : JRow} :
    j ∈ gpdSjoin df1 df2 op ↔
      ∃ l ∈ df1, ∃ p ∈ df2.enum, op l.geom p.2.geom = true ∧
        j = ⟨l.id, l.geom, p.1, p.2.id⟩ := by
  simp only [gpdSjoin, List.mem_flatMap, List.mem_map, List.mem_filter]
  constructor
  · rintro ⟨l, hl, p, ⟨hp, hop⟩, rfl⟩
    exact ⟨l, hl, p, hp, hop, rfl⟩
  · rintro ⟨l, hl, p, hp, hop, rfl⟩
    exact ⟨l, hl, p, ⟨hp, hop⟩, rfl⟩

theorem enum_fst_inj {α : Type} {l : List α} {p q : Nat × α}
    (hp : p ∈ l.enum) (hq : q ∈ l.enum) (h : p.1 = q.1) : p = q := by
  obtain ⟨i, x⟩ := p
  obtain ⟨i', y⟩ := q
  obtain rfl : i = i' := h
  have hx := (List.mk_mem_enum_iff_getElem?).mp hp
  have hy := (List.mk_mem_enum_iff_getElem?).mp hq
  rw [hx] at hy
  obtain rfl : x = y := by injection hy
  rfl

theorem gpdSjoin_nodup {df1 : List LRow} (df2 : List RRow)
    (op : Geometry → Geometry → Bool) (h : df1.Nodup) :
    (gpdSjoin df1 df2 op).Nodup := by
  induction df1 with
  | nil => simp [gpdSjoin]
  | cons l rest ih =>
    have hl : l ∉ rest := (List.nodup_cons.mp h).1
    have hrest : rest.Nodup := (List.nodup_cons.mp h).2
    have hcons : gpdSjoin (l :: rest) df2 op
        = ((df2.enum.filter fun p => op l.geom p.2.geom).map fun p =>
            (⟨l.id, l.geom, p.1, p.2.id⟩ : JRow)) ++ gpdSjoin rest df2 op := by
      simp [gpdSjoin]
    rw [hcons, List.nodup_append]
    refine ⟨?_, ih hrest, ?_⟩
    · apply List.Nodup.map_on
      · intro p hp q hq hpq
        have hp' : p ∈ df2.enum := (List.mem_filter.mp hp).1
        have hq' : q ∈ df2.enum := (List.mem_filter.mp hq).1
        exact enum_fst_inj hp' hq' (by injection hpq)
      · apply List.Nodup.filter
        have : (df2.enum.map Prod.fst).Nodup := List.nodup_enum_map_fst df2
        exact this.of_map Prod.fst
    · intro x hx hx'
      rcases List.mem_map.mp hx with ⟨p, _, rfl⟩
      rcases mem_gpdSjoin_iff.mp hx' with ⟨l', hl', p', _, _, hj⟩
      have : l = l' := by
        have h1 : l.id = l'.id := by injection hj
        have h2 : l.geom = l'.geom := by
          injection hj with e1 e2 e3 e4
        cases l; cases l'
        simp_all
      exact hl (this ▸ hl')

/-- Claim C1: for every left table, right table, spatial predicate and
requested column list, the chunked spatial join `sjoin_mp` (six
row-range chunks, each joined against the full right table and
concatenated) returns exactly the same set of output rows — hence the
same set of left-table identifiers — as running `sjoin` once over the
whole left table; the result set is invariant to the partitioning. -/
theorem sjoin_mp_partition_independence (df1 : List LRow) (op : Op)
    (df2 : List RRow) (cols : List Col) (x : List Value) :
    x ∈ sjoin_mp df1 op df2 cols ↔ x ∈ sjoin df1 df2 op cols :=
  mem_sjoin_mp_iff.trans mem_sjoin_iff.symm

/-- Six-row example table used to refute the `ceil(n / 6)` chunk-size
description of claim C4. -/
def ex6 : List LRow :=
  [⟨0, []⟩, ⟨1, []⟩, ⟨2, []⟩, ⟨3, []⟩, ⟨4, []⟩, ⟨5, []⟩]

/-- Claim C4 (counterexample): on a six-row left table the chunks built
by `sjoin_mp` have sizes `[2, 2, 2, 0, 0, 0]`, because
`batch_size = int(n / 6) + 1 = 2`, not `ceil(6 / 6) = 1`; in particular
it is false that every chunk except the last has size `ceil(n / 6)`. -/
theorem chunk_sizes_counterexample :
    (chunk_iterator ex6).map List.length = [2, 2, 2, 0, 0, 0] ∧
    ¬ (∀ c ∈ (chunk_iterator ex6).dropLast, c.length = (ex6.length + 5) / 6) := by
  decide

/-- Claim C4 (amended): `sjoin_mp` splits the left table into exactly 6
contiguous, order-preserving row ranges whose concatenation is the input
table (so every row belongs to exactly one chunk), with chunk `i` of
size `min (n / 6 + 1) (n - i * (n / 6 + 1))`, i.e. chunks of size
`floor(n / 6) + 1` until the rows run out, then a possibly-partial
chunk, then empty chunks. -/
theorem chunk_iterator_partition (df1 : List LRow) :
    (chunk_iterator df1).length = 6 ∧
    (chunk_iterator df1).flatten = df1 ∧
    ∀ i, i < 6 →
      ((chunk_iterator df1).getD i []).length
        = min (df1.length / 6 + 1) (df1.length - i * (df1.length / 6 + 1)) := by
  refine ⟨by simp [chunk_iterator], chunk_iterator_join df1, ?_⟩
  intro i hi
  have hget : (chunk_iterator df1).getD i []
      = pySlice df1 (i * (df1.length / 6 + 1)) ((i + 1) * (df1.length / 6 + 1)) := by
    simp [chunk_iterator, List.getD_eq_getElem?_getD, List.getElem?_map,
      List.getElem?_range, hi]
  rw [hget]
  simp only [pySlice, List.length_take, List.length_drop]
  congr 1
  rw [Nat.succ_mul]
  omega

theorem chunk_iterator_partition_witness :
    ((chunk_iterator ex6).getD 0 []).length
      = min (ex6.length / 6 + 1) (ex6.length - 0 * (ex6.length / 6 + 1)) :=
  (chunk_iterator_partition ex6).2.2 0 (by decide)

/-- One-row left table whose single geometry matches both right rows of
`c3df2`. -/
def c3df1 : List LRow := [⟨0, [(0, 0)]⟩]

/-- Two-row right table whose geometries both contain the point of
`c3df1`'s single row. -/
def c3df2 : List RRow := [⟨5, [(0, 0)]⟩, ⟨7, [(0, 0)]⟩]

/-- Claim C3 (counterexample): a single left row matching two right rows
contributes TWO output rows, not one. `drop_duplicates` runs on the full
joined frame, whose rows still carry `index_right` (and `id_right`), so
the two matches are not exact duplicates; only afterwards is the frame
projected to the requested columns, leaving the duplicate identifier
`0` twice in the per-chunk output. -/
theorem sjoin_duplicate_ids_counterexample :
    sjoin c3df1 c3df2 Op.intersects [Col.id_left]
      = [[Value.int 0], [Value.int 0]] ∧
    ¬ (sjoin c3df1 c3df2 Op.intersects [Col.id_left]).Nodup := by
  constructor
  · rfl
  · decide

/-- Claim C3 (amended): each per-chunk `sjoin` output row consists of
exactly the caller-specified columns of some joined row, and duplicate
removal happens on the full joined frame before projection: whenever the
left chunk has no duplicate rows, `drop_duplicates` removes nothing, so
a left row matching several right rows contributes one output row per
match and duplicate identifiers can survive in the projected output. -/
theorem sjoin_projects_after_dedup (df1 : List LRow) (df2 : List RRow)
    (op : Op) (cols : List Col) :
    (∀ r ∈ sjoin df1 df2 op cols,
        ∃ j ∈ gpdSjoin df1 df2 op.toFun, r = projRow cols j) ∧
    (df1.Nodup →
        sjoin df1 df2 op cols = (gpdSjoin df1 df2 op.toFun).map (projRow cols)) := by
  constructor
  · intro r hr
    rcases mem_sjoin_iff.mp hr with ⟨j, hj, hpj⟩
    exact ⟨j, hj, hpj.symm⟩
  · intro hnd
    unfold sjoin
    rw [dropDuplicates_eq_self (gpdSjoin_nodup df2 op.toFun hnd)]

theorem sjoin_projects_after_dedup_witness :
    sjoin c3df1 c3df2 Op.intersects [Col.id_left]
      = (gpdSjoin c3df1 c3df2 Op.intersects.toFun).map (projRow [Col.id_left]) :=
  (sjoin_projects_after_dedup c3df1 c3df2 Op.intersects [Col.id_left]).2 (by decide)

/-- A raw `lu_code` cell as read from a source file: land-use codes
arrive as free-form values, either normalizable to an integer or
malformed (a value `astype(int)` cannot convert). -/
inductive RawCode where
  | valid (n : Int)
  | malformed
  deriving DecidableEq, Repr

/-- A raw record of a county `water.gpkg` layer after the column
selection `gdf[['lu_code','geometry']]`: a free-form land-use code and a
possibly-missing geometry. -/
structure RawRow where
  lu_code : RawCode
  geometry : Option Geometry
  deriving DecidableEq, Repr

/-- A record after `gdf.lu_code.astype(int)` succeeded. -/
structure CodedRow where
  lu_code : Int
  geometry : Option Geometry
  deriving DecidableEq, Repr

/-- A record returned by `get_lotic_and_reservoirs`, with columns
`lu_code`, `acres`, `geometry`. -/
structure LoticRow where
  lu_code : Int
  acres : ℚ
  geometry : Option Geometry
  deriving DecidableEq, Repr

/-- Model of `gdf.loc[:, 'lu_code'] = gdf.lu_code.astype(int)`: convert
the whole column, raising `ValueError` on the first value that cannot be
normalized to an integer. -/
def astype_int : List RawRow → Except PyError (List CodedRow)
  | [] => .ok []
  | r :: rs =>
    match r.lu_code with
    | .malformed => .error .valueError
    | .valid n =>
      match astype_int rs with
      | .error e => .error e
      | .ok cs => .ok (⟨n, r.geometry⟩ :: cs)

/-- Embedding of `Estuary.getEstuaryMarine` (lines 28-43): return `[]`
when the county file is absent (`file = none`), otherwise normalize the
land-use codes and keep the records with `lu_code == 1100`. -/
def getEstuaryMarine (file : Option (List RawRow)) : Except PyError (List CodedRow) :=
  match file with
  | none => .ok []
  | some rows =>
    match astype_int rows with
    | .error e => .error e
    | .ok coded => .ok (coded.filter fun r => r.lu_code == 1100)

/-- The conversion constant 4046.86 m² per acre from line 85, as an
exact rational. -/
def acre_m2 : ℚ := 404686 / 100

/-- Embedding of `Lotic.get_lotic_and_reservoirs` (lines 70-89): return
`[]` when the county file is absent, otherwise normalize the land-use
codes, keep codes 1300 and 1210, compute
`acres = geometry.area / 4046.86` through the external area engine
`area`, and keep the 1210 records plus the 1300 records with
`acres >= threshold`. -/
def get_lotic_and_reservoirs (area : Option Geometry → ℚ)
    (file : Option (List RawRow)) (threshold : ℚ) :
    Except PyError (List LoticRow) :=
  match file with
  | none => .ok []
  | some rows =>
    match astype_int rows with
    | .error e => .error e
    | .ok coded =>
      let sel := coded.filter fun r => r.lu_code == 1300 || r.lu_code == 1210
      let withAcres : List LoticRow :=
        sel.map fun r => ⟨r.lu_code, area r.geometry / acre_m2, r.geometry⟩
      .ok (withAcres.filter fun r =>
        r.lu_code == 1210 || (r.lu_code == 1300 && decide (threshold ≤ r.acres)))

/-- Model of `pd.concat(frames)`: `pandas` raises
`ValueError: No objects to concatenate` on an empty list, and otherwise
stacks the frames in order. -/
def pdConcat {α : Type} (ts : List (List α)) : Except PyError (List α) :=
  if ts.isEmpty then .error .valueError else .ok ts.flatten

/-- Embedding of `Lotic.remove_disconnected_features` (lines 91-114).
Line 105 reads `sjoin_mp(lotic_gdf[['id','geometry']], 'intersects',
facet[['geometry']])`: it passes three arguments, but `sjoin_mp`
declares four required positional parameters (`df1, sjoin_op, df2,
cols`; `cols` has no default), so Python raises `TypeError` at the call
before any join is evaluated and the function never returns normally,
whatever the FACET network and polygon table contain. -/
def remove_disconnected_features (facet_rows : List Geometry)
    (lotic_gdf : List LoticRow) : Except PyError (List LoticRow) :=
  .error .typeError

/-- Collection loop of `Estuary.run_estuary` (lines 11-19): load each
county (propagating loader exceptions) and keep the per-county tables
that contributed at least one record. -/
def est_list : List (Option (List RawRow)) → Except PyError (List (List CodedRow))
  | [] => .ok []
  | f :: fs =>
    match getEstuaryMarine f with
    | .error e => .error e
    | .ok t =>
      match est_list fs with
      | .error e => .error e
      | .ok ts => .ok (if t.length > 0 then t :: ts else ts)

/-- Embedding of `Estuary.run_estuary` (lines 7-26) up to the written
table: collect the non-empty per-county tables and concatenate them with
`pd.concat`. -/
def run_estuary (files : List (Option (List RawRow))) : Except PyError (List CodedRow) :=
  match est_list files with
  | .error e => .error e
  | .ok ts => pdConcat ts

/-- Collection loop of `Lotic.run_lotic` (lines 49-57). -/
def lotic_list (area : Option Geometry → ℚ) (threshold : ℚ) :
    List (Option (List RawRow)) → Except PyError (List (List LoticRow))
  | [] => .ok []
  | f :: fs =>
    match get_lotic_and_reservoirs area f threshold with
    | .error e => .error e
    | .ok t =>
      match lotic_list area threshold fs with
      | .error e => .error e
      | .ok ts => .ok (if t.length > 0 then t :: ts else ts)

/-- Embedding of `Lotic.run_lotic` (lines 46-68) up to the written
table: collect the non-empty per-county tables, concatenate them with
`pd.concat`, then call `remove_disconnected_features` (which raises, see
its docstring). -/
def run_lotic (area : Option Geometry → ℚ) (threshold : ℚ)
    (facet_rows : List Geometry) (files : List (Option (List RawRow))) :
    Except PyError (List LoticRow) :=
  match lotic_list area threshold files with
  | .error e => .error e
  | .ok ts =>
    match pdConcat ts with
    | .error e => .error e
    | .ok merged => remove_disconnected_features facet_rows merged

-- Lemmas about the column conversion and the collection loops.

theorem astype_int_malformed {rows : List RawRow}
    (h : ∃ r ∈ rows, r.lu_code = RawCode.malformed) :
    astype_int rows = .error .valueError := by
  induction rows with
  | nil => simp at h
  | cons r rs ih =>
    rcases h with ⟨x, hx, hmal⟩
    rcases List.mem_cons.mp hx with rfl | hx'
    · simp [astype_int, hmal]
    · cases hcode : r.lu_code with
      | malformed => simp [astype_int, hcode]
      | valid n => simp [astype_int, hcode, ih ⟨x, hx', hmal⟩]

theorem astype_int_geometry {rows : List RawRow} {coded : List CodedRow}
    (h : astype_int rows = .ok coded) :
    ∀ c ∈ coded, ∃ raw ∈ rows, raw.geometry = c.geometry := by
  induction rows generalizing coded with
  | nil =>
    simp only [astype_int] at h
    injection h with h
    subst h
    simp
  | cons r rs ih =>
    cases hcode : r.lu_code with
    | malformed => simp [astype_int, hcode] at h
    | valid n =>
      simp only [astype_int, hcode] at h
      cases hrec : astype_int rs with
      | error e => rw [hrec] at h; exact absurd h (by simp)
      | ok cs =>
        rw [hrec] at h
        injection h with h
        subst h
        intro c hc
        rcases List.mem_cons.mp hc with rfl | hc'
        · exact ⟨r, List.mem_cons_self r rs, rfl⟩
        · rcases ih hrec c hc' with ⟨raw, hraw, hg⟩
          exact ⟨raw, List.mem_cons_of_mem r hraw, hg⟩

theorem est_list_all_none {files : List (Option (List RawRow))}
    (h : ∀ f ∈ files, f = none) : est_list files = .ok [] := by
  induction files with
  | nil => rfl
  | cons f fs ih =>
    have hf : f = none := h f (List.mem_cons_self f fs)
    subst hf
    simp [est_list, getEstuaryMarine, ih fun g hg => h g (List.mem_cons_of_mem _ hg)]

theorem lotic_list_all_none {area : Option Geometry → ℚ} {t : ℚ}
    {files : List (Option (List RawRow))}
    (h : ∀ f ∈ files, f = none) : lotic_list area t files = .ok [] := by
  induction files with
  | nil => rfl
  | cons f fs ih =>
    have hf : f = none := h f (List.mem_cons_self f fs)
    subst hf
    simp [lotic_list, get_lotic_and_reservoirs,
      ih fun g hg => h g (List.mem_cons_of_mem _ hg)]

/-- Claim C2: the Connectivity Filter never returns the intersecting
polygons, because line 105 calls `sjoin_mp` with three arguments while
`sjoin_mp` requires four: evaluating `remove_disconnected_features` on a
concrete network and a concrete polygon table that should clearly be
retained (its polygon contains a network point) raises `TypeError`. -/
theorem remove_disconnected_features_raises :
    remove_disconnected_features [[(0, 0), (1, 0)]]
      [⟨1300, 25, some [(0, 0)]⟩] = .error .typeError := rfl

/-- Claim C6: both loaders report an absent source file as zero records
without raising, and raise `ValueError` at the `astype(int)`
normalization step whenever some record's `lu_code` cannot be
normalized to an integer. -/
theorem loader_missing_file_and_malformed_code :
    (getEstuaryMarine none = .ok []) ∧
    (∀ (area : Option Geometry → ℚ) (t : ℚ),
        get_lotic_and_reservoirs area none t = .ok []) ∧
    (∀ rows : List RawRow, (∃ r ∈ rows, r.lu_code = RawCode.malformed) →
        getEstuaryMarine (some rows) = .error .valueError) ∧
    (∀ (area : Option Geometry → ℚ) (t : ℚ) (rows : List RawRow),
        (∃ r ∈ rows, r.lu_code = RawCode.malformed) →
        get_lotic_and_reservoirs area (some rows) t = .error .valueError) := by
  refine ⟨rfl, fun area t => rfl, ?_, ?_⟩
  · intro rows h
    simp [getEstuaryMarine, astype_int_malformed h]
  · intro area t rows h
    simp [get_lotic_and_reservoirs, astype_int_malformed h]

theorem loader_missing_file_and_malformed_code_witness :
    getEstuaryMarine (some [⟨RawCode.malformed, none⟩]) = .error .valueError :=
  loader_missing_file_and_malformed_code.2.2.1 [⟨RawCode.malformed, none⟩]
    ⟨⟨RawCode.malformed, none⟩, List.mem_singleton.mpr rfl, rfl⟩

/-- Claim C7: in `get_lotic_and_reservoirs`, with
`acres = area(geometry) / 4046.86`, a 1300-coded record of exactly
threshold acres is included (the bound `>= threshold` is inclusive), a
1300-coded record 0.01 acres below threshold is excluded, and a
1210-coded record is included regardless of its acreage. -/
theorem lotic_area_threshold (area : Option Geometry → ℚ)
    (g : Option Geometry) (t : ℚ) :
    (area g / acre_m2 = t →
        get_lotic_and_reservoirs area (some [⟨RawCode.valid 1300, g⟩]) t
          = .ok [⟨1300, t, g⟩]) ∧
    (area g / acre_m2 = t - 1 / 100 →
        get_lotic_and_reservoirs area (some [⟨RawCode.valid 1300, g⟩]) t
          = .ok []) ∧
    (get_lotic_and_reservoirs area (some [⟨RawCode.valid 1210, g⟩]) t
        = .ok [⟨1210, area g / acre_m2, g⟩]) := by
  refine ⟨?_, ?_, ?_⟩
  · intro h
    have hle : decide (t ≤ area g / acre_m2) = true := by
      rw [h]
      simp
    simp [get_lotic_and_reservoirs, astype_int, List.filter, hle, h]
  · intro h
    have hlt : decide (t ≤ area g / acre_m2) = false := by
      rw [h]
      simp only [decide_eq_false_iff_not, not_le]
      linarith
    simp [get_lotic_and_reservoirs, astype_int, List.filter, hlt]
  · simp [get_lotic_and_reservoirs, astype_int, List.filter]

theorem lotic_area_threshold_witness :
    get_lotic_and_reservoirs (fun _ => (25 : ℚ) * acre_m2)
      (some [⟨RawCode.valid 1300, none⟩]) 25 = .ok [⟨1300, 25, none⟩] :=
  (lotic_area_threshold (fun _ => (25 : ℚ) * acre_m2) none 25).1
    (by norm_num [acre_m2])

/-- Claim C8: the concatenation step shared by `run_lotic` and
`run_estuary` fails with `ValueError` when no region contributed any
records (the collected list of per-region tables is empty), and on a
non-empty list of tables `pd.concat` succeeds and returns one table
whose row count is the sum of the input row counts. -/
theorem merger_empty_fails_and_concat_sums :
    (∀ files : List (Option (List RawRow)),
        (∀ f ∈ files, f = none) → run_estuary files = .error .valueError) ∧
    (∀ (area : Option Geometry → ℚ) (t : ℚ) (facet_rows : List Geometry)
        (files : List (Option (List RawRow))),
        (∀ f ∈ files, f = none) →
        run_lotic area t facet_rows files = .error .valueError) ∧
    (∀ ts : List (List CodedRow), ts ≠ [] →
        pdConcat ts = .ok ts.flatten ∧
          ts.flatten.length = (ts.map List.length).sum) := by
  refine ⟨?_, ?_, ?_⟩
  · intro files h
    simp [run_estuary, est_list_all_none h, pdConcat]
  · intro area t facet_rows files h
    simp [run_lotic, lotic_list_all_none h, pdConcat]
  · intro ts hts
    refine ⟨by simp [pdConcat, hts], ?_⟩
    simp [List.length_flatten]

theorem merger_empty_fails_and_concat_sums_witness :
    run_estuary [none, none] = .error .valueError ∧
    pdConcat [[(⟨1100, none⟩ : CodedRow)], [⟨1100, none⟩, ⟨1100, none⟩]]
      = .ok [⟨1100, none⟩, ⟨1100, none⟩, ⟨1100, none⟩] :=
  ⟨merger_empty_fails_and_concat_sums.1 [none, none] (by simp),
    (merger_empty_fails_and_concat_sums.2.2
      [[⟨1100, none⟩], [⟨1100, none⟩, ⟨1100, none⟩]] (by simp)).1⟩

/-- Claim C9 (counterexample): the loaders never filter out records with
a missing geometry, so a source record with `lu_code` 1100 and a null
geometry is returned by `getEstuaryMarine` as a finalized record whose
geometry is null, refuting the non-null-geometry half of the claim. -/
theorem estuary_null_geometry_counterexample :
    getEstuaryMarine (some [⟨RawCode.valid 1100, none⟩]) = .ok [⟨1100, none⟩] ∧
    (⟨1100, none⟩ : CodedRow).geometry = none := ⟨rfl, rfl⟩

/-- Claim C9 (amended): every record returned by `getEstuaryMarine` has
`lu_code = 1100` and every record returned by `get_lotic_and_reservoirs`
has `lu_code` in `{1210, 1300}`; geometries are passed through from the
source unfiltered, so the returned records have non-null geometry
whenever every source record does (the code performs no null-geometry
check of its own). -/
theorem finalized_records_codes :
    (∀ file out, getEstuaryMarine file = .ok out →
        ∀ r ∈ out, r.lu_code = 1100) ∧
    (∀ (area : Option Geometry → ℚ) file (t : ℚ) out,
        get_lotic_and_reservoirs area file t = .ok out →
        ∀ r ∈ out, r.lu_code = 1210 ∨ r.lu_code = 1300) ∧
    (∀ rows out, getEstuaryMarine (some rows) = .ok out →
        (∀ rr ∈ rows, rr.geometry ≠ none) → ∀ r ∈ out, r.geometry ≠ none) ∧
    (∀ (area : Option Geometry → ℚ) rows (t : ℚ) out,
        get_lotic_and_reservoirs area (some rows) t = .ok out →
        (∀ rr ∈ rows, rr.geometry ≠ none) → ∀ r ∈ out, r.geometry ≠ none) := by
  refine ⟨?_, ?_, ?_, ?_⟩
  · intro file out h r hr
    cases file with
    | none =>
      simp only [getEstuaryMarine] at h
      injection h with h
      subst h
      simp at hr
    | some rows =>
      simp only [getEstuaryMarine] at h
      cases hrec : astype_int rows with
      | error e => rw [hrec] at h; exact absurd h (by simp)
      | ok coded =>
        rw [hrec] at h
        injection h with h
        subst h
        have := (List.mem_filter.mp hr).2
        simpa using this
  · intro area file t out h r hr
    cases file with
    | none =>
      simp only [get_lotic_and_reservoirs] at h
      injection h with h
      subst h
      simp at hr
    | some rows =>
      simp only [get_lotic_and_reservoirs] at h
      cases hrec : astype_int rows with
      | error e => rw [hrec] at h; exact absurd h (by simp)
      | ok coded =>
        rw [hrec] at h
        injection h with h
        subst h
        have := (List.mem_filter.mp hr).2
        rcases Bool.or_eq_true_iff.mp this with h1 | h2
        · exact Or.inl (by simpa using h1)
        · exact Or.inr (by simpa using (Bool.and_eq_true_iff.mp h2).1)
  · intro rows out h hrows r hr
    simp only [getEstuaryMarine] at h
    cases hrec : astype_int rows with
    | error e => rw [hrec] at h; exact absurd h (by simp)
    | ok coded =>
      rw [hrec] at h
      injection h with h
      subst h
      have hmem : r ∈ coded := (List.mem_filter.mp hr).1
      rcases astype_int_geometry hrec r hmem with ⟨raw, hraw, hg⟩
      rw [← hg]
      exact hrows raw hraw
  · intro area rows t out h hrows r hr
    simp only [get_lotic_and_reservoirs] at h
    cases hrec : astype_int rows with
    | error e => rw [hrec] at h; exact absurd h (by simp)
    | ok coded =>
      rw [hrec] at h
      injection h with h
      subst h
      have hmem := (List.mem_filter.mp hr).1
      rcases List.mem_map.mp hmem with ⟨s, hs, rfl⟩
      have hsc : s ∈ coded := (List.mem_filter.mp hs).1
      rcases astype_int_geometry hrec s hsc with ⟨raw, hraw, hg⟩
      simpa [← hg] using hrows raw hraw

theorem finalized_records_codes_witness :
    (⟨1100, some [(0, 0)]⟩ : CodedRow).geometry ≠ none :=
  finalized_records_codes.2.2.1 [⟨RawCode.valid 1100, some [(0, 0)]⟩]
    [⟨1100, some [(0, 0)]⟩] rfl
    (by decide) ⟨1100, some [(0, 0)]⟩ (List.mem_singleton.mpr rfl)

/-- A raw FACET stream-segment record: the line geometry plus whatever
other attribute columns the shapefile carries. -/
structure FacetRow where
  geom : Geometry
  attrs : List Value
  deriving DecidableEq, Repr

/-- A FACET record after lines 121-122 appended the synthetic `id`
column (the row position) and the `len` column (the engine's geometry
length). -/
structure FacetRowAug where
  base : FacetRow
  id : Int
  len : Int
  deriving DecidableEq, Repr

/-- Stand-in for the external engine's `geometry.length` attribute (its
value is only stored in the `len` column, never branched on). -/
def geom_length (g : Geometry) : Int := Int.ofNat g.length

/-- Lines 121-122: `gdf.loc[:, 'id'] = [int(x) for x in range(len(gdf))]`
and `gdf.loc[:, 'len'] = gdf['geometry'].length`. -/
def augmentFacet (gdf0 : List FacetRow) : List FacetRowAug :=
  gdf0.enum.map fun p => ⟨p.2, Int.ofNat p.1, geom_length p.2.geom⟩

/-- Model of the row selection `df[df[key].isin(ids)]` used at lines 111
and 137. -/
def isin_select {α : Type} (ids : List Value) (rows : List α) (key : α → Value) :
    List α :=
  rows.filter fun r => ids.contains (key r)

/-- The default record used to state positional lookups. -/
def geomAt (gdf0 : List FacetRow) (i : Nat) : Geometry :=
  (gdf0.getD i ⟨[], []⟩).geom

/-- The left frame `gdf[['id','geometry']]` of `clean_facet`'s
self-join. -/
def facet_left (gdf0 : List FacetRow) : List LRow :=
  (augmentFacet gdf0).map fun r => ⟨r.id, r.base.geom⟩

/-- The right frame `gdf[['id','geometry']]` of `clean_facet`'s
self-join. -/
def facet_right (gdf0 : List FacetRow) : List RRow :=
  (augmentFacet gdf0).map fun r => ⟨r.id, r.base.geom⟩

/-- Line 126: the chunked self-join of the FACET network against
itself, keeping the columns `id_left` and `id_right`. -/
def facet_pairs (gdf0 : List FacetRow) : List (List Value) :=
  sjoin_mp (facet_left gdf0) Op.intersects (facet_right gdf0)
    [Col.id_left, Col.id_right]

/-- Lines 130-132: discard pairs whose two identifiers coincide,
project to `id_left`, and take the unique surviving left identifiers. -/
def facet_ids (gdf0 : List FacetRow) : List Value :=
  dropDuplicates
    ((((facet_pairs gdf0).filter fun r => decide (r[0]? ≠ r[1]?)).map
        fun r => r.take 1).filterMap List.head?)

/-- Embedding of `FACET.clean_facet` (lines 117-141) up to the written
table: keep exactly the segments whose `id` appears among the surviving
left identifiers of the deduplicated self-join. -/
def clean_facet (gdf0 : List FacetRow) : List FacetRowAug :=
  isin_select (facet_ids gdf0) (augmentFacet gdf0) fun r => Value.int r.id

-- Characterization of the facet self-join pipeline.

theorem intersectsOp_comm (a b : Geometry) : intersectsOp a b = intersectsOp b a := by
  rw [Bool.eq_iff_iff]
  simp only [intersectsOp, List.any_eq_true, List.elem_eq_mem, decide_eq_true_eq]
  exact ⟨fun ⟨p, hp, hq⟩ => ⟨p, hq, hp⟩, fun ⟨p, hp, hq⟩ => ⟨p, hq, hp⟩⟩

theorem intersectsOp_self_of_left {a b : Geometry}
    (h : intersectsOp a b = true) : intersectsOp a a = true := by
  simp only [intersectsOp, List.any_eq_true, List.elem_eq_mem,
    decide_eq_true_eq] at h ⊢
  rcases h with ⟨p, hp, _⟩
  exact ⟨p, hp, hp⟩

theorem facet_left_eq (gdf0 : List FacetRow) :
    facet_left gdf0 = gdf0.enum.map fun p => ⟨Int.ofNat p.1, p.2.geom⟩ := by
  simp [facet_left, augmentFacet, List.map_map]

theorem facet_right_eq (gdf0 : List FacetRow) :
    facet_right gdf0 = gdf0.enum.map fun p => ⟨Int.ofNat p.1, p.2.geom⟩ := by
  simp [facet_right, augmentFacet, List.map_map]

theorem geomAt_eq {gdf0 : List FacetRow} {i : Nat} {row : FacetRow}
    (h : gdf0[i]? = some row) : geomAt gdf0 i = row.geom := by
  simp [geomAt, List.getD_eq_getElem?_getD, h]

theorem getElem?_of_lt {gdf0 : List FacetRow} {i : Nat} (hi : i < gdf0.length) :
    gdf0[i]? = some (gdf0.getD i ⟨[], []⟩) := by
  rw [List.getD_eq_getElem?_getD, List.getElem?_eq_getElem hi]
  rfl

theorem mem_facet_left_iff {gdf0 : List FacetRow} {l : LRow} :
    l ∈ facet_left gdf0 ↔
      ∃ i, i < gdf0.length ∧ l = ⟨Int.ofNat i, geomAt gdf0 i⟩ := by
  rw [facet_left_eq]
  simp only [List.mem_map]
  constructor
  · rintro ⟨⟨i, row⟩, hp, rfl⟩
    have hg : gdf0[i]? = some row := List.mk_mem_enum_iff_getElem?.mp hp
    have hi : i < gdf0.length := (List.getElem?_eq_some.mp hg).1
    exact ⟨i, hi, by rw [geomAt_eq hg]⟩
  · rintro ⟨i, hi, rfl⟩
    refine ⟨(i, gdf0.getD i ⟨[], []⟩), List.mk_mem_enum_iff_getElem?.mpr ?_, ?_⟩
    · exact getElem?_of_lt hi
    · rw [geomAt_eq (getElem?_of_lt hi)]

theorem facet_right_getElem? (gdf0 : List FacetRow) (b : Nat) :
    (facet_right gdf0)[b]? = gdf0[b]?.map fun a => (⟨Int.ofNat b, a.geom⟩ : RRow) := by
  rw [facet_right_eq, List.getElem?_map, List.getElem?_enum]
  cases gdf0[b]? <;> rfl

theorem mem_enum_facet_right {gdf0 : List FacetRow} {p : Nat × RRow} :
    p ∈ (facet_right gdf0).enum ↔
      ∃ b, b < gdf0.length ∧ p = (b, ⟨Int.ofNat b, geomAt gdf0 b⟩) := by
  obtain ⟨b, r⟩ := p
  rw [List.mk_mem_enum_iff_getElem?, facet_right_getElem? gdf0 b]
  constructor
  · intro h
    rcases Option.map_eq_some'.mp h with ⟨row, hrow, rfl⟩
    have hb : b < gdf0.length := (List.getElem?_eq_some.mp hrow).1
    exact ⟨b, hb, by rw [geomAt_eq hrow]⟩
  · rintro ⟨b', hb, heq⟩
    obtain ⟨rfl, hr⟩ : b = b' ∧ r = ⟨Int.ofNat b', geomAt gdf0 b'⟩ := by
      injection heq with h1 h2
      exact ⟨h1, h2⟩
    subst hr
    rw [getElem?_of_lt hb, Option.map_some']
    rw [geomAt_eq (getElem?_of_lt hb)]

theorem mem_facet_pairs_iff {gdf0 : List FacetRow} {r : List Value} :
    r ∈ facet_pairs gdf0 ↔
      ∃ i b, i < gdf0.length ∧ b < gdf0.length ∧
        intersectsOp (geomAt gdf0 i) (geomAt gdf0 b) = true ∧
        r = [Value.int (Int.ofNat i), Value.int (Int.ofNat b)] := by
  unfold facet_pairs
  rw [mem_sjoin_mp_iff]
  constructor
  · rintro ⟨j, hj, rfl⟩
    rcases mem_gpdSjoin_iff.mp hj with ⟨l, hl, p, hp, hop, rfl⟩
    rcases mem_facet_left_iff.mp hl with ⟨i, hi, rfl⟩
    rcases mem_enum_facet_right.mp hp with ⟨b, hb, rfl⟩
    exact ⟨i, b, hi, hb, hop, rfl⟩
  · rintro ⟨i, b, hi, hb, hop, rfl⟩
    refine ⟨⟨Int.ofNat i, geomAt gdf0 i, b, Int.ofNat b⟩, ?_, rfl⟩
    apply mem_gpdSjoin_iff.mpr
    exact ⟨⟨Int.ofNat i, geomAt gdf0 i⟩, mem_facet_left_iff.mpr ⟨i, hi, rfl⟩,
      (b, ⟨Int.ofNat b, geomAt gdf0 b⟩),
      mem_enum_facet_right.mpr ⟨b, hb, rfl⟩, hop, rfl⟩

theorem mem_facet_ids_iff {gdf0 : List FacetRow} {v : Value} :
    v ∈ facet_ids gdf0 ↔
      ∃ i j, i < gdf0.length ∧ j < gdf0.length ∧ i ≠ j ∧
        intersectsOp (geomAt gdf0 i) (geomAt gdf0 j) = true ∧
        v = Value.int (Int.ofNat i) := by
  unfold facet_ids
  rw [mem_dropDuplicates]
  simp only [List.mem_filterMap, List.mem_map, List.mem_filter,
    decide_eq_true_eq]
  constructor
  · rintro ⟨r1, ⟨r, ⟨hr, hne⟩, rfl⟩, hhead⟩
    rcases mem_facet_pairs_iff.mp hr with ⟨i, b, hi, hb, hop, rfl⟩
    simp only [List.take, List.head?] at hhead
    have hv : v = Value.int (Int.ofNat i) := by
      injection hhead with h
      exact h.symm
    have hib : i ≠ b := by
      intro h
      subst h
      simp at hne
    exact ⟨i, b, hi, hb, hib, hop, hv⟩
  · rintro ⟨i, j, hi, hj, hij, hop, rfl⟩
    refine ⟨[Value.int (Int.ofNat i)],
      ⟨[Value.int (Int.ofNat i), Value.int (Int.ofNat j)],
        ⟨mem_facet_pairs_iff.mpr ⟨i, j, hi, hj, hop, rfl⟩, ?_⟩, rfl⟩, rfl⟩
    simp only [List.getElem?_cons_zero, List.getElem?_cons_succ, ne_eq,
      Option.some.injEq, Value.int.injEq]
    exact fun h => hij (Int.ofNat_inj.mp h)

theorem mem_augmentFacet_iff {gdf0 : List FacetRow} {x : FacetRowAug} :
    x ∈ augmentFacet gdf0 ↔
      ∃ i, i < gdf0.length ∧
        x = ⟨gdf0.getD i ⟨[], []⟩, Int.ofNat i, geom_length (geomAt gdf0 i)⟩ := by
  simp only [augmentFacet, List.mem_map]
  constructor
  · rintro ⟨⟨i, row⟩, hp, rfl⟩
    have hg : gdf0[i]? = some row := List.mk_mem_enum_iff_getElem?.mp hp
    have hi : i < gdf0.length := (List.getElem?_eq_some.mp hg).1
    have hd : gdf0.getD i ⟨[], []⟩ = row := by
      simp [List.getD_eq_getElem?_getD, hg]
    exact ⟨i, hi, by rw [geomAt_eq hg, hd]⟩
  · rintro ⟨i, hi, rfl⟩
    refine ⟨(i, gdf0.getD i ⟨[], []⟩), List.mk_mem_enum_iff_getElem?.mpr ?_, ?_⟩
    · exact getElem?_of_lt hi
    · rw [geomAt_eq (getElem?_of_lt hi)]

theorem mem_clean_facet_iff {gdf0 : List FacetRow} {x : FacetRowAug} :
    x ∈ clean_facet gdf0 ↔
      ∃ i, i < gdf0.length ∧
        x = ⟨gdf0.getD i ⟨[], []⟩, Int.ofNat i, geom_length (geomAt gdf0 i)⟩ ∧
        ∃ j, j < gdf0.length ∧ j ≠ i ∧
          intersectsOp (geomAt gdf0 i) (geomAt gdf0 j) = true := by
  unfold clean_facet isin_select
  rw [List.mem_filter]
  constructor
  · rintro ⟨hmem, hcont⟩
    rcases mem_augmentFacet_iff.mp hmem with ⟨i, hi, rfl⟩
    have hv : Value.int (Int.ofNat i) ∈ facet_ids gdf0 := List.elem_iff.mp hcont
    rcases mem_facet_ids_iff.mp hv with ⟨i', j, hi', hj, hij, hop, hveq⟩
    have hii : i = i' := by
      injection hveq with h
      exact Int.ofNat_inj.mp h
    subst hii
    exact ⟨i, hi, rfl, j, hj, fun h => hij h.symm, hop⟩
  · rintro ⟨i, hi, rfl, j, hj, hji, hop⟩
    refine ⟨mem_augmentFacet_iff.mpr ⟨i, hi, rfl⟩, List.elem_iff.mpr ?_⟩
    exact mem_facet_ids_iff.mpr ⟨i, j, hi, hj, fun h => hji h.symm, hop, rfl⟩

/-- Claim C5: `clean_facet` self-joins the network against itself with
predicate `intersects`, discards the pairs whose left identifier equals
their right identifier, and keeps exactly the segments whose identifier
appears among the surviving left identifiers — i.e. a segment is
retained iff some OTHER row's geometry intersects its geometry.
Consequently the single segment of a one-segment network is always
removed, and in a two-segment network whose segments intersect (e.g.
share an endpoint) both segments are retained. -/
theorem clean_facet_self_touch :
    (∀ (gdf0 : List FacetRow) (x : FacetRowAug),
        x ∈ clean_facet gdf0 ↔
          ∃ i, i < gdf0.length ∧
            x = ⟨gdf0.getD i ⟨[], []⟩, Int.ofNat i,
              geom_length (geomAt gdf0 i)⟩ ∧
            ∃ j, j < gdf0.length ∧ j ≠ i ∧
              intersectsOp (geomAt gdf0 i) (geomAt gdf0 j) = true) ∧
    (∀ r : FacetRow, clean_facet [r] = []) ∧
    (∀ r1 r2 : FacetRow, intersectsOp r1.geom r2.geom = true →
        clean_facet [r1, r2]
          = [⟨r1, 0, geom_length r1.geom⟩, ⟨r2, 1, geom_length r2.geom⟩]) := by
  refine ⟨fun gdf0 x => mem_clean_facet_iff, ?_, ?_⟩
  · intro r
    apply List.eq_nil_iff_forall_not_mem.mpr
    intro x hx
    rcases mem_clean_facet_iff.mp hx with ⟨i, hi, _, j, hj, hji, _⟩
    simp only [List.length_singleton] at hi hj
    omega
  · intro r1 r2 h
    have h01 : intersectsOp (geomAt [r1, r2] 0) (geomAt [r1, r2] 1) = true := h
    have h10 : intersectsOp (geomAt [r1, r2] 1) (geomAt [r1, r2] 0) = true := by
      show intersectsOp r2.geom r1.geom = true
      rw [intersectsOp_comm]
      exact h
    have hall : ∀ a ∈ augmentFacet [r1, r2],
        ((facet_ids [r1, r2]).contains (Value.int a.id)) = true := by
      intro a ha
      rcases mem_augmentFacet_iff.mp ha with ⟨i, hi, rfl⟩
      simp at hi
      apply List.elem_iff.mpr
      have hcases : i = 0 ∨ i = 1 := by omega
      rcases hcases with rfl | rfl
      · exact mem_facet_ids_iff.mpr ⟨0, 1, by simp, by simp, by omega, h01, rfl⟩
      · exact mem_facet_ids_iff.mpr ⟨1, 0, by simp, by simp, by omega, h10, rfl⟩
    calc clean_facet [r1, r2]
        = (augmentFacet [r1, r2]).filter
            (fun a => (facet_ids [r1, r2]).contains (Value.int a.id)) := rfl
      _ = augmentFacet [r1, r2] := List.filter_eq_self.mpr hall
      _ = [⟨r1, 0, geom_length r1.geom⟩, ⟨r2, 1, geom_length r2.geom⟩] := rfl

theorem clean_facet_self_touch_witness :
    clean_facet [⟨[(0, 0)], []⟩] = [] ∧
    clean_facet [⟨[(0, 0), (1, 0)], []⟩, ⟨[(1, 0), (2, 0)], []⟩]
      = [⟨⟨[(0, 0), (1, 0)], []⟩, 0, 2⟩, ⟨⟨[(1, 0), (2, 0)], []⟩, 1, 2⟩] :=
  ⟨clean_facet_self_touch.2.1 ⟨[(0, 0)], []⟩, by
    have h := clean_facet_self_touch.2.2 ⟨[(0, 0), (1, 0)], []⟩
      ⟨[(1, 0), (2, 0)], []⟩ (by decide)
    simpa [geom_length] using h⟩

theorem augmentFacet_map_base (gdf0 : List FacetRow) :
    (augmentFacet gdf0).map FacetRowAug.base = gdf0 := by
  simp only [augmentFacet, List.map_map]
  exact List.enum_map_snd gdf0

/-- Claim C10: the row selections `df[df['id'].isin(ids)]` at line 111
(connectivity filter) and line 137 (self-touch filter) are pure: the
`isin`-selection always returns a sublist of its input rows (each
surviving row unchanged, in input order), and in particular the
records retained by `clean_facet` — after the `id`/`len` columns were
appended — form a subsequence of the input table with their original
attribute columns and geometry intact. -/
theorem filters_are_row_selections :
    (∀ gdf0 : List FacetRow,
        ((clean_facet gdf0).map FacetRowAug.base).Sublist gdf0) ∧
    (∀ (α : Type) (ids : List Value) (rows : List α) (key : α → Value),
        (isin_select ids rows key).Sublist rows) := by
  constructor
  · intro gdf0
    have h1 : (clean_facet gdf0).Sublist (augmentFacet gdf0) :=
      List.filter_sublist _
    have h2 := h1.map FacetRowAug.base
    rwa [augmentFacet_map_base] at h2
  · intro α ids rows key
    exact List.filter_sublist _
